import Mathlib

/-!
# Verification of the foodTwitter recipe CRUD application

A shallow embedding of `src/foodTwitter/app.py`: the five SQLAlchemy models
(User, Recipe, Post, Ingredient, NutritionDetail), the database state, and
the five Flask route handlers (`index`, `create_recipe`, `get_recipes`,
`update_recipe`, `delete_recipe`), together with the Flask method routing
implied by the `@app.route` decorators.

Modelling conventions:
* Timestamps are abstract ticks (`Nat`); `db.func.current_timestamp()` is a
  `now` parameter passed to the handler, and `datetime.isoformat` is an
  injective rendering of the tick to a string.
* Form data (`request.form`) is an association list of string key/value
  pairs; `data["k"]` is a lookup that raises `KeyError` (modelled as
  `Except.error`) when the key is absent.
* Each table is the list of its rows in insertion (rowid) order.
  `Recipe.query.get` is first-match lookup on the primary key;
  `db.session.delete(row)` erases that first match; in-place attribute
  mutation of the fetched row updates that first match in place.
* SQLite assigns a fresh `INTEGER PRIMARY KEY` as one more than the
  largest existing id (`nextRecipeId`).
* `order_by(created_at.desc())` is a stable sort by descending
  `created_at` (tie order among equal keys is unspecified by SQL; the
  theorems below never depend on it).
-/

namespace FoodTwitter

/-- Abstract timestamp: one tick of `db.func.current_timestamp()`. -/
abbrev Timestamp := Nat

/-- Model of `datetime.isoformat`: an injective rendering of the timestamp
to a string (the concrete ISO-8601 text is irrelevant to the claims). -/
def Timestamp.isoformat (t : Timestamp) : String := toString t

/-- Row of the `user` table (`class User(db.Model)`). -/
structure User where
  user_id : Nat
  username : String
deriving DecidableEq, Repr

/-- Row of the `recipe` table (`class Recipe(db.Model)`), holding the
attribute values as the handler assigned them: the four mutable fields are
strings, exactly as `request.form` delivers them, since the handlers copy
them verbatim.  The `cooking_time` column is declared `db.Integer`, and on
commit SQLite INTEGER affinity converts a well-formed integer string to an
integer, so the row as re-queried after commit differs in that one field;
`Recipe.stored` below gives that persisted image. -/
structure Recipe where
  recipe_id : Nat
  recipe_name : String
  ingredients : String
  instructions : String
  cooking_time : String
  created_at : Timestamp
deriving DecidableEq, Repr

/-- Row of the `post` table (`class Post(db.Model)`); `recipe_id` is a
nullable unique foreign key, hence `Option`. -/
structure Post where
  post_id : Nat
  user_id : Nat
  recipe_id : Option Nat
  post_content : String
  created_at : Timestamp
deriving DecidableEq, Repr

/-- Row of the `ingredient` table (`class Ingredient(db.Model)`). -/
structure Ingredient where
  ingredient_id : Nat
  food_id : Nat
  recipe_id : Nat
deriving DecidableEq, Repr

/-- Row of the `nutrition_detail` table (`class NutritionDetail(db.Model)`);
`carbs`, `protein`, `fat` are nullable REAL columns, modelled as `Option Rat`
(no handler ever computes with them). -/
structure NutritionDetail where
  detail_id : Nat
  ingredient_id : Nat
  carbs : Option Rat
  protein : Option Rat
  fat : Option Rat
deriving DecidableEq, Repr

/-- The whole database state: one list of rows per table, in rowid order. -/
structure DB where
  users : List User
  recipes : List Recipe
  posts : List Post
  ingredients : List Ingredient
  nutritionDetails : List NutritionDetail
deriving DecidableEq, Repr

/-- The freshly created database (`db.create_all()` on a new file). -/
def emptyDB : DB := ⟨[], [], [], [], []⟩

/-- The flat dictionary produced by `Recipe.serialize`. -/
structure SerializedRecipe where
  recipe_id : Nat
  recipe_name : String
  ingredients : String
  instructions : String
  cooking_time : String
  created_at : String
deriving DecidableEq, Repr

/-- `Recipe.serialize` from `app.py`: each attribute mapped to a key/value
pair, `created_at` rendered with `isoformat`. -/
def Recipe.serialize (r : Recipe) : SerializedRecipe :=
  ⟨r.recipe_id, r.recipe_name, r.ingredients, r.instructions, r.cooking_time,
    r.created_at.isoformat⟩

/-- A dynamically typed SQLite value: an INTEGER-affinity column stores a
well-formed integer string as an integer and anything else as text. -/
inductive SqlValue where
  | int (n : Int)
  | text (s : String)
deriving DecidableEq, Repr

/-- Value of a non-empty string of decimal digits, `none` otherwise. -/
def parseDigits (cs : List Char) : Option Nat :=
  if cs.isEmpty then none
  else if cs.all Char.isDigit then
    some (cs.foldl (fun acc c => acc * 10 + (c.toNat - 48)) 0)
  else none

/-- A well-formed integer literal in the SQLite sense — an optional minus
sign followed by decimal digits — and its value (the further refinements of
the SQLite literal grammar, such as surrounding whitespace, are not needed
by the claims). -/
def parseIntLiteral (s : String) : Option Int :=
  match s.data with
  | '-' :: cs => (parseDigits cs).map (fun n => -(n : Int))
  | cs => (parseDigits cs).map (fun n => (n : Int))

/-- SQLite INTEGER column affinity applied to a bound string: a well-formed
integer literal is converted to INTEGER, any other string is kept as
text. -/
def integerAffinity (s : String) : SqlValue :=
  match parseIntLiteral s with
  | some n => .int n
  | none => .text s

/-- The Recipe row as re-queried after commit: the `db.Integer` column
`cooking_time` holds the value produced by INTEGER affinity from whatever
string the handler assigned; the `db.Text` and `db.String` columns keep
their strings unchanged. -/
structure StoredRecipe where
  recipe_id : Nat
  recipe_name : String
  ingredients : String
  instructions : String
  cooking_time : SqlValue
  created_at : Timestamp
deriving DecidableEq, Repr

/-- Persistence of a Recipe row: commit binds the assigned attribute values
and a re-query returns them with column affinity applied — the identity on
every column except `cooking_time`. -/
def Recipe.stored (r : Recipe) : StoredRecipe :=
  ⟨r.recipe_id, r.recipe_name, r.ingredients, r.instructions,
    integerAffinity r.cooking_time, r.created_at⟩

/-- The flat dictionary `Recipe.serialize` produces on a re-queried row:
`cooking_time` carries whatever dynamic value the row holds. -/
structure SerializedStoredRecipe where
  recipe_id : Nat
  recipe_name : String
  ingredients : String
  instructions : String
  cooking_time : SqlValue
  created_at : String
deriving DecidableEq, Repr

/-- `Recipe.serialize` applied to a re-queried row: each attribute mapped
to a key/value pair, `created_at` rendered with `isoformat`. -/
def StoredRecipe.serialize (r : StoredRecipe) : SerializedStoredRecipe :=
  ⟨r.recipe_id, r.recipe_name, r.ingredients, r.instructions, r.cooking_time,
    r.created_at.isoformat⟩

/-- `request.form`: an association list of form keys and values. -/
abbrev Form := List (String × String)

/-- `Recipe.query.get(id)`: first row whose primary key matches. -/
def Recipe.get (db : DB) (id : Nat) : Option Recipe :=
  db.recipes.find? (fun r => r.recipe_id == id)

/-- SQLite rowid assignment for a new `INTEGER PRIMARY KEY`: one more than
the largest id present. -/
def nextRecipeId (db : DB) : Nat :=
  (db.recipes.map Recipe.recipe_id).foldr max 0 + 1

/-- HTTP responses the handlers can produce. -/
inductive Response where
  /-- `render_template("index.html")` — 200 HTML. -/
  | rendered (template : String)
  /-- `render_template("all_recipes.html", recipes=recipe_data)` — 200 HTML. -/
  | renderedList (template : String) (recipes : List SerializedRecipe)
  /-- `render_template("update_recipe.html", recipe=recipe.serialize())` — 200 HTML. -/
  | renderedOne (template : String) (recipe : SerializedRecipe)
  /-- `redirect(url_for(endpoint))` — 302. -/
  | redirect (endpoint : String)
  /-- `jsonify(\x7b"error": "Recipe not found"\x7d), 404`. -/
  | notFoundJson
  /-- The Flask answer when the path is routed but the method is not allowed. -/
  | methodNotAllowed
deriving DecidableEq, Repr

/-- HTTP status code of a response. -/
def Response.status : Response → Nat
  | .rendered _ => 200
  | .renderedList _ _ => 200
  | .renderedOne _ _ => 200
  | .redirect _ => 302
  | .notFoundJson => 404
  | .methodNotAllowed => 405

/-- JSON body of a response, as an association list (only the 404 error
responses carry JSON). -/
def Response.jsonBody : Response → Option (List (String × String))
  | .notFoundJson => some [("error", "Recipe not found")]
  | _ => none

/-- Replace the first element satisfying `p` by its image under `f`
(models fetching a row by primary key and mutating it in place). -/
def updateFirst (p : α → Bool) (f : α → α) : List α → List α
  | [] => []
  | a :: as => if p a then f a :: as else a :: updateFirst p f as

/-- `GET /` — `index()`: renders the index page, touches nothing. -/
def index (db : DB) : Response × DB :=
  (.rendered "index.html", db)

/-- `POST /recipes` — `create_recipe()`: reads the four form fields (a
missing key raises `KeyError` before anything is added), builds a new
`Recipe` with `created_at` defaulted to the current timestamp, appends it,
commits, and redirects to `get_recipes`. -/
def create_recipe (db : DB) (form : Form) (now : Timestamp) :
    Except String (Response × DB) :=
  match form.lookup "recipe_name" with
  | none => .error "KeyError: recipe_name"
  | some nm =>
  match form.lookup "ingredients" with
  | none => .error "KeyError: ingredients"
  | some ing =>
  match form.lookup "instructions" with
  | none => .error "KeyError: instructions"
  | some ins =>
  match form.lookup "cooking_time" with
  | none => .error "KeyError: cooking_time"
  | some ct =>
    let new_recipe : Recipe := ⟨nextRecipeId db, nm, ing, ins, ct, now⟩
    .ok (.redirect "get_recipes",
      { db with recipes := db.recipes ++ [new_recipe] })

/-- The relation `order_by(Recipe.created_at.desc())` sorts by. -/
def createdDesc (a b : Recipe) : Prop := b.created_at ≤ a.created_at

instance : DecidableRel createdDesc := fun a b =>
  inferInstanceAs (Decidable (b.created_at ≤ a.created_at))

instance : IsTotal Recipe createdDesc :=
  ⟨fun a b => (Nat.le_total b.created_at a.created_at).elim Or.inl Or.inr⟩

instance : IsTrans Recipe createdDesc :=
  ⟨fun _ _ _ h h2 => Nat.le_trans h2 h⟩

/-- `GET /all_recipes` — `get_recipes()`: all Recipe rows ordered by
`created_at` descending, each serialized, handed to the template. -/
def get_recipes (db : DB) : Response × DB :=
  let recipes := db.recipes.insertionSort createdDesc
  let recipe_data := recipes.map Recipe.serialize
  (.renderedList "all_recipes.html" recipe_data, db)

/-- `GET /recipes/<recipe_id>` — the GET branch of `update_recipe()`:
fetch, 404 if absent, otherwise render the edit form with the serialized
recipe. -/
def update_recipe_get (db : DB) (id : Nat) : Response × DB :=
  match Recipe.get db id with
  | none => (.notFoundJson, db)
  | some recipe => (.renderedOne "update_recipe.html" recipe.serialize, db)

/-- `POST /recipes/<recipe_id>` — the POST branch of `update_recipe()`:
fetch, 404 if absent, otherwise overwrite the four mutable attributes of
that row from the form (a missing key raises `KeyError`), commit, and
redirect to `get_recipes`. -/
def update_recipe_post (db : DB) (id : Nat) (form : Form) :
    Except String (Response × DB) :=
  match Recipe.get db id with
  | none => .ok (.notFoundJson, db)
  | some _ =>
  match form.lookup "recipe_name" with
  | none => .error "KeyError: recipe_name"
  | some nm =>
  match form.lookup "ingredients" with
  | none => .error "KeyError: ingredients"
  | some ing =>
  match form.lookup "instructions" with
  | none => .error "KeyError: instructions"
  | some ins =>
  match form.lookup "cooking_time" with
  | none => .error "KeyError: cooking_time"
  | some ct =>
    let overwrite : Recipe → Recipe := fun r =>
      { r with recipe_name := nm, ingredients := ing,
               instructions := ins, cooking_time := ct }
    let newRecipes := updateFirst (fun r => r.recipe_id == id) overwrite db.recipes
    .ok (.redirect "get_recipes", { db with recipes := newRecipes })

/-- `POST /recipes/<recipe_id>/delete` — `delete_recipe()`: fetch, 404 if
absent, otherwise delete every Ingredient row with matching `recipe_id`,
then delete the Recipe row itself, commit, redirect to `get_recipes`. -/
def delete_recipe (db : DB) (id : Nat) : Response × DB :=
  match Recipe.get db id with
  | none => (.notFoundJson, db)
  | some _ =>
    (.redirect "get_recipes",
      { db with
          ingredients := db.ingredients.filter (fun i => i.recipe_id != id),
          recipes := db.recipes.eraseP (fun r => r.recipe_id == id) })

/-- HTTP methods appearing in the route table. -/
inductive Method where
  | GET
  | POST
deriving DecidableEq, Repr

/-- The URL patterns registered by the `@app.route` decorators. -/
inductive RequestPath where
  /-- `/` -/
  | root
  /-- `/recipes` -/
  | recipes
  /-- `/all_recipes` -/
  | allRecipes
  /-- `/recipes/<int:recipe_id>` -/
  | recipeItem (id : Nat)
  /-- `/recipes/<int:recipe_id>/delete` -/
  | recipeDelete (id : Nat)
deriving DecidableEq, Repr

/-- Flask dispatch over the registered routes: `/` GET only, `/recipes`
POST only, `/all_recipes` GET only, `/recipes/<id>` GET and POST,
`/recipes/<id>/delete` POST only; a routed path with a method outside its
`methods` list answers 405 Method Not Allowed. -/
def dispatch (m : Method) (p : RequestPath) (form : Form) (now : Timestamp)
    (db : DB) : Except String (Response × DB) :=
  match p, m with
  | .root, .GET => .ok (index db)
  | .root, .POST => .ok (.methodNotAllowed, db)
  | .recipes, .POST => create_recipe db form now
  | .recipes, .GET => .ok (.methodNotAllowed, db)
  | .allRecipes, .GET => .ok (get_recipes db)
  | .allRecipes, .POST => .ok (.methodNotAllowed, db)
  | .recipeItem id, .GET => .ok (update_recipe_get db id)
  | .recipeItem id, .POST => update_recipe_post db id form
  | .recipeDelete id, .POST => .ok (delete_recipe db id)
  | .recipeDelete _, .GET => .ok (.methodNotAllowed, db)

/-- The foreign-key invariant of §3 of the design: every Ingredient row
references an existing Recipe row. -/
def ingredientsReferenceRecipes (db : DB) : Prop :=
  ∀ i ∈ db.ingredients, ∃ r ∈ db.recipes, r.recipe_id = i.recipe_id

/-- Database states reachable from the fresh database by any sequence of
requests dispatched through the registered routes. -/
inductive Reachable : DB → Prop where
  | empty : Reachable emptyDB
  | step {db db2 : DB} {m : Method} {p : RequestPath} {form : Form}
      {now : Timestamp} {resp : Response} : Reachable db →
      dispatch m p form now db = .ok (resp, db2) → Reachable db2

/-- A form holding exactly the four recipe fields. -/
def mkForm (nm ing ins ct : String) : Form :=
  [("recipe_name", nm), ("ingredients", ing), ("instructions", ins),
   ("cooking_time", ct)]

/-- A sample populated database used to instantiate the theorems: one user,
one recipe (id 1), one post referencing the recipe, one ingredient of the
recipe, one nutrition detail of the ingredient. -/
def sampleDB : DB :=
  { users := [⟨1, "alice"⟩],
    recipes := [⟨1, "Test Recipe", "Ingredient 1, Ingredient 2",
                 "Test instructions", "30", 10⟩],
    posts := [⟨1, 1, some 1, "my post", 11⟩],
    ingredients := [⟨1, 7, 1⟩],
    nutritionDetails := [⟨1, 1, none, none, none⟩] }

section HelperLemmas

/-- Elements not satisfying `p` survive `List.eraseP p`. -/
theorem mem_eraseP_of_neg {p : α → Bool} {a : α} {l : List α}
    (ha : a ∈ l) (hpa : p a = false) : a ∈ l.eraseP p := by
  induction l with
  | nil => cases ha
  | cons b l ih =>
    by_cases hb : p b
    · rw [List.eraseP_cons_of_pos hb]
      rcases List.mem_cons.mp ha with h | h
      · subst h; rw [hpa] at hb; cases hb
      · exact h
    · rw [List.eraseP_cons_of_neg (by simpa using hb)]
      rcases List.mem_cons.mp ha with h | h
      · exact h ▸ List.mem_cons_self _ _
      · exact List.mem_cons_of_mem _ (ih h)

/-- After erasing the row whose key matches, a key-unique list has no row
with that key left to find. -/
theorem find?_eraseP_eq_none (l : List Recipe) (id : Nat)
    (hnd : (l.map Recipe.recipe_id).Nodup) :
    (l.eraseP (fun r => r.recipe_id == id)).find?
      (fun r => r.recipe_id == id) = none := by
  induction l with
  | nil => rfl
  | cons a l ih =>
    rw [List.map_cons, List.nodup_cons] at hnd
    by_cases ha : (a.recipe_id == id) = true
    · have he : (a :: l).eraseP (fun r => r.recipe_id == id) = l := by
        simp [List.eraseP_cons, ha]
      rw [he, List.find?_eq_none]
      intro x hx hpx
      exact hnd.1 (by
        rw [List.mem_map]
        refine ⟨x, hx, ?_⟩
        have h1 : a.recipe_id = id := by simpa using ha
        have h2 : x.recipe_id = id := by simpa using hpx
        rw [h1, h2])
    · have he : (a :: l).eraseP (fun r => r.recipe_id == id) =
          a :: l.eraseP (fun r => r.recipe_id == id) := by
        simp [List.eraseP_cons, ha]
      rw [he, List.find?_cons_of_neg _ (by simpa using ha)]
      exact ih hnd.2

/-- `updateFirst` rewrites the first match in place, leaving the prefix of
non-matching elements and the whole suffix untouched. -/
theorem updateFirst_decomp (p : α → Bool) (f : α → α) (l : List α) (a : α)
    (h : l.find? p = some a) :
    ∃ l1 l2, l = l1 ++ a :: l2 ∧ (∀ x ∈ l1, p x = false) ∧
      updateFirst p f l = l1 ++ f a :: l2 := by
  induction l with
  | nil => cases h
  | cons b l ih =>
    by_cases hb : p b
    · rw [List.find?_cons_of_pos _ hb] at h
      obtain rfl : b = a := by injection h
      exact ⟨[], l, rfl, by simp, by simp [updateFirst, hb]⟩
    · rw [List.find?_cons_of_neg _ hb] at h
      obtain ⟨l1, l2, hl, hl1, hu⟩ := ih h
      refine ⟨b :: l1, l2, by simp [hl], ?_, ?_⟩
      · intro x hx
        rcases List.mem_cons.mp hx with h | h
        · subst h; simpa using hb
        · exact hl1 x h
      · simp [updateFirst, hb, hu]

/-- `updateFirst` preserves any projection the rewriting function
preserves. -/
theorem map_updateFirst (p : α → Bool) (f : α → α) (g : α → β)
    (hg : ∀ a, g (f a) = g a) (l : List α) :
    (updateFirst p f l).map g = l.map g := by
  induction l with
  | nil => rfl
  | cons b l ih =>
    by_cases hb : p b
    · simp [updateFirst, hb, hg]
    · simp [updateFirst, hb, ih]

end HelperLemmas

/-- Claim C3: for a `recipe_id` absent from the database, GET
`/recipes/<id>`, POST `/recipes/<id>` and POST `/recipes/<id>/delete` all
answer 404 with JSON body `error: Recipe not found`, leaving the database
state unchanged. -/
theorem absentIdGives404 (db : DB) (id : Nat) (form : Form) (now : Timestamp)
    (h : Recipe.get db id = none) :
    dispatch .GET (.recipeItem id) form now db = .ok (.notFoundJson, db) ∧
    dispatch .POST (.recipeItem id) form now db = .ok (.notFoundJson, db) ∧
    dispatch .POST (.recipeDelete id) form now db = .ok (.notFoundJson, db) ∧
    Response.status .notFoundJson = 404 ∧
    Response.jsonBody .notFoundJson = some [("error", "Recipe not found")] := by
  refine ⟨?_, ?_, ?_, rfl, rfl⟩ <;>
    simp [dispatch, update_recipe_get, update_recipe_post, delete_recipe, h]

/-- Witness for C3: recipe 99999 on the empty database. -/
theorem absentIdGives404Witness :
    dispatch .GET (.recipeItem 99999) [] 0 emptyDB = .ok (.notFoundJson, emptyDB) ∧
    dispatch .POST (.recipeItem 99999) [] 0 emptyDB = .ok (.notFoundJson, emptyDB) ∧
    dispatch .POST (.recipeDelete 99999) [] 0 emptyDB = .ok (.notFoundJson, emptyDB) ∧
    Response.status .notFoundJson = 404 ∧
    Response.jsonBody .notFoundJson = some [("error", "Recipe not found")] :=
  absentIdGives404 emptyDB 99999 [] 0 rfl

/-- Claim C4: a POST to `/recipes` whose form has all four keys answers a
302 redirect to the recipe-list endpoint and appends exactly one new Recipe
row carrying the form values verbatim, `created_at` set to the insertion
time; no existing row of any table is modified. -/
theorem createAddsExactlyOneRow (db : DB) (form : Form) (now : Timestamp)
    (v1 v2 v3 v4 : String)
    (h1 : form.lookup "recipe_name" = some v1)
    (h2 : form.lookup "ingredients" = some v2)
    (h3 : form.lookup "instructions" = some v3)
    (h4 : form.lookup "cooking_time" = some v4) :
    ∃ db', create_recipe db form now = .ok (.redirect "get_recipes", db') ∧
      Response.status (.redirect "get_recipes") = 302 ∧
      db'.recipes = db.recipes ++ [⟨nextRecipeId db, v1, v2, v3, v4, now⟩] ∧
      db'.users = db.users ∧ db'.posts = db.posts ∧
      db'.ingredients = db.ingredients ∧
      db'.nutritionDetails = db.nutritionDetails := by
  refine ⟨{ db with
      recipes := db.recipes ++ [⟨nextRecipeId db, v1, v2, v3, v4, now⟩] },
    ?_, rfl, rfl, rfl, rfl, rfl, rfl⟩
  simp [create_recipe, h1, h2, h3, h4]

/-- Witness for C4: create on the empty database. -/
theorem createAddsExactlyOneRowWitness :
    ∃ db', create_recipe emptyDB (mkForm "a" "b" "c" "30") 5 =
        .ok (.redirect "get_recipes", db') ∧
      Response.status (.redirect "get_recipes") = 302 ∧
      db'.recipes = emptyDB.recipes ++ [⟨nextRecipeId emptyDB, "a", "b", "c", "30", 5⟩] ∧
      db'.users = emptyDB.users ∧ db'.posts = emptyDB.posts ∧
      db'.ingredients = emptyDB.ingredients ∧
      db'.nutritionDetails = emptyDB.nutritionDetails :=
  createAddsExactlyOneRow emptyDB (mkForm "a" "b" "c" "30") 5 "a" "b" "c" "30"
    rfl rfl rfl rfl

/-- Claim C7: a POST to `/recipes` whose form misses any of the four keys
fails with an unhandled `KeyError` — no redirect is produced and no Recipe
row is inserted. -/
theorem createMissingFieldErrors (db : DB) (form : Form) (now : Timestamp)
    (h : form.lookup "recipe_name" = none ∨ form.lookup "ingredients" = none ∨
         form.lookup "instructions" = none ∨
         form.lookup "cooking_time" = none) :
    (∃ e, create_recipe db form now = .error e) ∧
    ∀ resp db', create_recipe db form now ≠ .ok (resp, db') := by
  have hres : ∃ e, create_recipe db form now = .error e := by
    unfold create_recipe
    rcases hk1 : form.lookup "recipe_name" with _ | v1
    · exact ⟨_, rfl⟩
    rcases hk2 : form.lookup "ingredients" with _ | v2
    · exact ⟨_, rfl⟩
    rcases hk3 : form.lookup "instructions" with _ | v3
    · exact ⟨_, rfl⟩
    rcases hk4 : form.lookup "cooking_time" with _ | v4
    · exact ⟨_, rfl⟩
    rcases h with h | h | h | h <;> simp_all
  obtain ⟨e, he⟩ := hres
  exact ⟨⟨e, he⟩, fun resp db' hok => by rw [he] at hok; cases hok⟩

/-- Witness for C7: the empty form. -/
theorem createMissingFieldErrorsWitness :
    (∃ e, create_recipe emptyDB [] 0 = .error e) ∧
    ∀ resp db', create_recipe emptyDB [] 0 ≠ .ok (resp, db') :=
  createMissingFieldErrors emptyDB [] 0 (Or.inl rfl)

/-- Counterexample to claim C8 as stated: the round-trip is not the
identity on the representation of `cooking_time`.  Creating a recipe with
the form value "30" for `cooking_time` (a string, as every form value is)
and serializing the re-queried row yields the integer 30 — the `db.Integer`
column plus SQLite INTEGER affinity converts the numeric string on commit,
as the repository test asserts — not the original string "30". -/
theorem cookingTimeRepresentationNotPreserved :
    ∃ resp db' r,
      create_recipe emptyDB (mkForm "pasta" "flour" "boil" "30") 42 =
        .ok (resp, db') ∧
      db'.recipes.getLast? = some r ∧
      r.cooking_time = "30" ∧
      r.stored.serialize.cooking_time = SqlValue.int 30 ∧
      r.stored.serialize.cooking_time ≠ SqlValue.text "30" := by
  refine ⟨.redirect "get_recipes",
    { emptyDB with recipes := [⟨1, "pasta", "flour", "boil", "30", 42⟩] },
    ⟨1, "pasta", "flour", "boil", "30", 42⟩, rfl, rfl, rfl, ?_, ?_⟩
  · decide
  · decide

/-- Claim C8 amended: serializing the re-queried Recipe created from a
four-field form reproduces `recipe_name`, `ingredients` and `instructions`
exactly; `cooking_time` is reproduced up to INTEGER column affinity — a
well-formed integer string comes back as the corresponding integer, any
other string comes back as the original text. -/
theorem serializeAfterCreateRoundTripAmended (db : DB) (form : Form)
    (now : Timestamp) (v1 v2 v3 v4 : String)
    (h1 : form.lookup "recipe_name" = some v1)
    (h2 : form.lookup "ingredients" = some v2)
    (h3 : form.lookup "instructions" = some v3)
    (h4 : form.lookup "cooking_time" = some v4) :
    ∃ resp db' r, create_recipe db form now = .ok (resp, db') ∧
      db'.recipes.getLast? = some r ∧
      r.stored.serialize.recipe_name = v1 ∧
      r.stored.serialize.ingredients = v2 ∧
      r.stored.serialize.instructions = v3 ∧
      r.stored.serialize.cooking_time = integerAffinity v4 ∧
      (∀ n : Int, parseIntLiteral v4 = some n →
        r.stored.serialize.cooking_time = SqlValue.int n) ∧
      (parseIntLiteral v4 = none →
        r.stored.serialize.cooking_time = SqlValue.text v4) := by
  refine ⟨.redirect "get_recipes",
    { db with
        recipes := db.recipes ++ [⟨nextRecipeId db, v1, v2, v3, v4, now⟩] },
    ⟨nextRecipeId db, v1, v2, v3, v4, now⟩, ?_, ?_, rfl, rfl, rfl, rfl,
    ?_, ?_⟩
  · simp [create_recipe, h1, h2, h3, h4]
  · simp
  · intro n hn
    simp [Recipe.stored, StoredRecipe.serialize, integerAffinity, hn]
  · intro hn
    simp [Recipe.stored, StoredRecipe.serialize, integerAffinity, hn]

/-- Witness for the amended C8: create on the sample database with the
numeric string "12", which comes back as the integer 12. -/
theorem serializeAfterCreateRoundTripAmendedWitness :
    ∃ resp db' r,
      create_recipe sampleDB (mkForm "pasta" "flour" "boil" "12") 42 =
        .ok (resp, db') ∧
      db'.recipes.getLast? = some r ∧
      r.stored.serialize.recipe_name = "pasta" ∧
      r.stored.serialize.ingredients = "flour" ∧
      r.stored.serialize.instructions = "boil" ∧
      r.stored.serialize.cooking_time = integerAffinity "12" ∧
      (∀ n : Int, parseIntLiteral "12" = some n →
        r.stored.serialize.cooking_time = SqlValue.int n) ∧
      (parseIntLiteral "12" = none →
        r.stored.serialize.cooking_time = SqlValue.text "12") :=
  serializeAfterCreateRoundTripAmended sampleDB
    (mkForm "pasta" "flour" "boil" "12") 42 "pasta" "flour" "boil" "12"
    rfl rfl rfl rfl

/-- Counterexample to claim C6 as stated: a GET request to `/recipes` does
not answer 200 with a JSON array — the route is registered for POST only,
so Flask answers 405 Method Not Allowed with no JSON body (shown here on
the empty database). -/
theorem getRecipesRouteIs405 :
    dispatch .GET .recipes [] 0 emptyDB = .ok (.methodNotAllowed, emptyDB) ∧
    Response.status .methodNotAllowed = 405 ∧
    Response.status .methodNotAllowed ≠ 200 ∧
    Response.jsonBody .methodNotAllowed = none := by
  refine ⟨rfl, rfl, ?_, rfl⟩
  decide

/-- Claim C6 amended: for every database state, a GET request to `/recipes`
answers 405 Method Not Allowed and leaves the database unchanged; the
recipe listing is instead served by GET `/all_recipes`, which answers 200
with the serialized recipes (handed to an HTML template, not JSON). -/
theorem getRecipesRouteAmended (db : DB) (form : Form) (now : Timestamp) :
    dispatch .GET .recipes form now db = .ok (.methodNotAllowed, db) ∧
    Response.status .methodNotAllowed = 405 ∧
    ∃ out, dispatch .GET .allRecipes form now db =
        .ok (.renderedList "all_recipes.html" out, db) ∧
      Response.status (.renderedList "all_recipes.html" out) = 200 ∧
      out = (db.recipes.insertionSort createdDesc).map Recipe.serialize := by
  exact ⟨rfl, rfl, _, rfl, rfl, rfl⟩

/-- Claim C1: deleting an existing recipe (recipe ids being unique, as the
primary key guarantees) removes every Ingredient row with matching
`recipe_id`, then the Recipe row itself; afterwards a fetch of that id
answers 404 and no Ingredient row referencing it remains. -/
theorem deleteCascadesThenFetch404 (db : DB) (id : Nat) (r : Recipe)
    (hr : Recipe.get db id = some r)
    (hnd : (db.recipes.map Recipe.recipe_id).Nodup) :
    ∃ db', delete_recipe db id = (.redirect "get_recipes", db') ∧
      db'.ingredients = db.ingredients.filter (fun i => i.recipe_id != id) ∧
      db'.recipes = db.recipes.eraseP (fun x => x.recipe_id == id) ∧
      (∀ i ∈ db'.ingredients, i.recipe_id ≠ id) ∧
      Recipe.get db' id = none ∧
      update_recipe_get db' id = (.notFoundJson, db') ∧
      Response.status .notFoundJson = 404 := by
  have hnone : Recipe.get { db with
      ingredients := db.ingredients.filter (fun i => i.recipe_id != id),
      recipes := db.recipes.eraseP (fun x => x.recipe_id == id) } id = none := by
    simpa [Recipe.get] using find?_eraseP_eq_none db.recipes id hnd
  refine ⟨{ db with
      ingredients := db.ingredients.filter (fun i => i.recipe_id != id),
      recipes := db.recipes.eraseP (fun x => x.recipe_id == id) },
    ?_, rfl, rfl, ?_, hnone, ?_, rfl⟩
  · simp [delete_recipe, hr]
  · intro i hi
    simpa using (List.mem_filter.mp hi).2
  · unfold update_recipe_get
    rw [hnone]

/-- Witness for C1: deleting recipe 1 of the sample database. -/
theorem deleteCascadesThenFetch404Witness :
    ∃ db', delete_recipe sampleDB 1 = (.redirect "get_recipes", db') ∧
      db'.ingredients = sampleDB.ingredients.filter (fun i => i.recipe_id != 1) ∧
      db'.recipes = sampleDB.recipes.eraseP (fun x => x.recipe_id == 1) ∧
      (∀ i ∈ db'.ingredients, i.recipe_id ≠ 1) ∧
      Recipe.get db' 1 = none ∧
      update_recipe_get db' 1 = (.notFoundJson, db') ∧
      Response.status .notFoundJson = 404 :=
  deleteCascadesThenFetch404 sampleDB 1
    ⟨1, "Test Recipe", "Ingredient 1, Ingredient 2", "Test instructions",
     "30", 10⟩ rfl (by decide)

/-- Claim C2: a POST of a four-field form to `/recipes/<id>` for an
existing `recipe_id` overwrites exactly the four mutable fields of that
row, in place — its `recipe_id` and `created_at` and every other row of
every table are untouched — and answers a redirect to the list. -/
theorem updateOverwritesExactlyFourFields (db : DB) (id : Nat) (form : Form)
    (r0 : Recipe) (v1 v2 v3 v4 : String)
    (hr : Recipe.get db id = some r0)
    (h1 : form.lookup "recipe_name" = some v1)
    (h2 : form.lookup "ingredients" = some v2)
    (h3 : form.lookup "instructions" = some v3)
    (h4 : form.lookup "cooking_time" = some v4) :
    ∃ db' l1 l2,
      update_recipe_post db id form = .ok (.redirect "get_recipes", db') ∧
      db.recipes = l1 ++ r0 :: l2 ∧
      (∀ x ∈ l1, x.recipe_id ≠ id) ∧
      db'.recipes = l1 ++ ⟨r0.recipe_id, v1, v2, v3, v4, r0.created_at⟩ :: l2 ∧
      db'.users = db.users ∧ db'.posts = db.posts ∧
      db'.ingredients = db.ingredients ∧
      db'.nutritionDetails = db.nutritionDetails := by
  have hfind : db.recipes.find? (fun x => x.recipe_id == id) = some r0 := hr
  obtain ⟨l1, l2, hl, hl1, hu⟩ :=
    updateFirst_decomp (fun x => x.recipe_id == id)
      (fun x => { x with recipe_name := v1, ingredients := v2,
                         instructions := v3, cooking_time := v4 })
      db.recipes r0 hfind
  refine ⟨{ db with recipes := updateFirst (fun x => x.recipe_id == id)
                      (fun x => { x with recipe_name := v1, ingredients := v2,
                                         instructions := v3,
                                         cooking_time := v4 })
                      db.recipes },
    l1, l2, ?_, hl, ?_, ?_, rfl, rfl, rfl, rfl⟩
  · unfold update_recipe_post
    rw [hr, h1, h2, h3, h4]
  · intro x hx
    simpa using hl1 x hx
  · exact hu

/-- Witness for C2: updating recipe 1 of the sample database. -/
theorem updateOverwritesExactlyFourFieldsWitness :
    ∃ db' l1 l2,
      update_recipe_post sampleDB 1
          (mkForm "Updated Test Recipe" "Updated Ingredient 1"
            "Updated instructions" "45") =
        .ok (.redirect "get_recipes", db') ∧
      sampleDB.recipes = l1 ++
        (⟨1, "Test Recipe", "Ingredient 1, Ingredient 2",
          "Test instructions", "30", 10⟩ : Recipe) :: l2 ∧
      (∀ x ∈ l1, x.recipe_id ≠ 1) ∧
      db'.recipes = l1 ++
        (⟨(⟨1, "Test Recipe", "Ingredient 1, Ingredient 2",
            "Test instructions", "30", 10⟩ : Recipe).recipe_id,
          "Updated Test Recipe", "Updated Ingredient 1",
          "Updated instructions", "45",
          (⟨1, "Test Recipe", "Ingredient 1, Ingredient 2",
            "Test instructions", "30", 10⟩ : Recipe).created_at⟩ : Recipe) :: l2 ∧
      db'.users = sampleDB.users ∧ db'.posts = sampleDB.posts ∧
      db'.ingredients = sampleDB.ingredients ∧
      db'.nutritionDetails = sampleDB.nutritionDetails :=
  updateOverwritesExactlyFourFields sampleDB 1
    (mkForm "Updated Test Recipe" "Updated Ingredient 1"
      "Updated instructions" "45")
    ⟨1, "Test Recipe", "Ingredient 1, Ingredient 2", "Test instructions",
     "30", 10⟩
    "Updated Test Recipe" "Updated Ingredient 1" "Updated instructions" "45"
    rfl rfl rfl rfl rfl

/-- Claim C5: the listing returns all Recipe rows sorted by `created_at`
descending (newest first), each serialized with `created_at` rendered by
`isoformat`; in particular recipes created in order A, B, C on a fresh
database list as C, B, A. -/
theorem listingNewestFirst :
    (∀ db : DB, ∃ sorted : List Recipe,
        get_recipes db =
          (.renderedList "all_recipes.html" (sorted.map Recipe.serialize), db) ∧
        sorted.Perm db.recipes ∧ sorted.Sorted createdDesc) ∧
    (∀ (a1 a2 a3 a4 b1 b2 b3 b4 c1 c2 c3 c4 : String)
        (t1 t2 t3 : Timestamp) (dbA dbB dbC : DB) (rA rB rC : Response),
      t1 < t2 → t2 < t3 →
      create_recipe emptyDB (mkForm a1 a2 a3 a4) t1 = .ok (rA, dbA) →
      create_recipe dbA (mkForm b1 b2 b3 b4) t2 = .ok (rB, dbB) →
      create_recipe dbB (mkForm c1 c2 c3 c4) t3 = .ok (rC, dbC) →
      get_recipes dbC = (.renderedList "all_recipes.html"
        [Recipe.serialize ⟨3, c1, c2, c3, c4, t3⟩,
         Recipe.serialize ⟨2, b1, b2, b3, b4, t2⟩,
         Recipe.serialize ⟨1, a1, a2, a3, a4, t1⟩], dbC)) := by
  constructor
  · intro db
    exact ⟨db.recipes.insertionSort createdDesc, rfl,
      List.perm_insertionSort createdDesc db.recipes,
      List.sorted_insertionSort createdDesc db.recipes⟩
  · intro a1 a2 a3 a4 b1 b2 b3 b4 c1 c2 c3 c4 t1 t2 t3 dbA dbB dbC rA rB rC
    intro h12 h23 hA hB hC
    have hA2 : create_recipe emptyDB (mkForm a1 a2 a3 a4) t1 =
        .ok (.redirect "get_recipes",
          { emptyDB with recipes := [⟨1, a1, a2, a3, a4, t1⟩] }) := rfl
    rw [hA2] at hA
    obtain ⟨-, hdbA⟩ := Prod.mk.injEq .. ▸ Except.ok.inj hA
    subst hdbA
    have hB2 : create_recipe { emptyDB with recipes := [⟨1, a1, a2, a3, a4, t1⟩] }
        (mkForm b1 b2 b3 b4) t2 =
        .ok (.redirect "get_recipes",
          { emptyDB with recipes := [⟨1, a1, a2, a3, a4, t1⟩,
            ⟨2, b1, b2, b3, b4, t2⟩] }) := rfl
    rw [hB2] at hB
    obtain ⟨-, hdbB⟩ := Prod.mk.injEq .. ▸ Except.ok.inj hB
    subst hdbB
    have hC2 : create_recipe { emptyDB with recipes := [⟨1, a1, a2, a3, a4, t1⟩,
        ⟨2, b1, b2, b3, b4, t2⟩] } (mkForm c1 c2 c3 c4) t3 =
        .ok (.redirect "get_recipes",
          { emptyDB with recipes := [⟨1, a1, a2, a3, a4, t1⟩,
            ⟨2, b1, b2, b3, b4, t2⟩, ⟨3, c1, c2, c3, c4, t3⟩] }) := rfl
    rw [hC2] at hC
    obtain ⟨-, hdbC⟩ := Prod.mk.injEq .. ▸ Except.ok.inj hC
    subst hdbC
    have n1 : ¬ (t3 ≤ t2) := Nat.not_le.mpr h23
    have n2 : ¬ (t3 ≤ t1) := Nat.not_le.mpr (Nat.lt_trans h12 h23)
    have n3 : ¬ (t2 ≤ t1) := Nat.not_le.mpr h12
    simp [get_recipes, createdDesc, n1, n2, n3]

/-- Witness for C5: three concrete recipes created at times 1 < 2 < 3. -/
theorem listingNewestFirstWitness :
    get_recipes ⟨[], [⟨1, "A1", "A2", "A3", "A4", 1⟩,
        ⟨2, "B1", "B2", "B3", "B4", 2⟩, ⟨3, "C1", "C2", "C3", "C4", 3⟩],
        [], [], []⟩ =
      (.renderedList "all_recipes.html"
        [Recipe.serialize ⟨3, "C1", "C2", "C3", "C4", 3⟩,
         Recipe.serialize ⟨2, "B1", "B2", "B3", "B4", 2⟩,
         Recipe.serialize ⟨1, "A1", "A2", "A3", "A4", 1⟩],
       ⟨[], [⟨1, "A1", "A2", "A3", "A4", 1⟩, ⟨2, "B1", "B2", "B3", "B4", 2⟩,
        ⟨3, "C1", "C2", "C3", "C4", 3⟩], [], [], []⟩) :=
  listingNewestFirst.2 "A1" "A2" "A3" "A4" "B1" "B2" "B3" "B4"
    "C1" "C2" "C3" "C4" 1 2 3 _ _ _
    (.redirect "get_recipes") (.redirect "get_recipes") (.redirect "get_recipes")
    (by decide) (by decide) rfl rfl rfl

/-- Every successful dispatch through the routes preserves the
Ingredient→Recipe foreign-key invariant. -/
theorem dispatchPreservesIngredientFK {db db2 : DB} {m : Method}
    {p : RequestPath} {form : Form} {now : Timestamp} {resp : Response}
    (hinv : ingredientsReferenceRecipes db)
    (hd : dispatch m p form now db = .ok (resp, db2)) :
    ingredientsReferenceRecipes db2 := by
  cases p with
  | root =>
    cases m <;> simp [dispatch, index] at hd <;> rw [← hd.2] <;> exact hinv
  | recipes =>
    cases m with
    | GET =>
      simp [dispatch] at hd
      rw [← hd.2]; exact hinv
    | POST =>
      simp only [dispatch] at hd
      unfold create_recipe at hd
      rcases hk1 : form.lookup "recipe_name" with _ | v1 <;> rw [hk1] at hd
      · cases hd
      rcases hk2 : form.lookup "ingredients" with _ | v2 <;> rw [hk2] at hd
      · cases hd
      rcases hk3 : form.lookup "instructions" with _ | v3 <;> rw [hk3] at hd
      · cases hd
      rcases hk4 : form.lookup "cooking_time" with _ | v4 <;> rw [hk4] at hd
      · cases hd
      obtain ⟨-, hdb2⟩ := Prod.mk.injEq .. ▸ Except.ok.inj hd
      subst hdb2
      intro i hi
      obtain ⟨r, hrmem, hrid⟩ := hinv i hi
      exact ⟨r, List.mem_append_left _ hrmem, hrid⟩
  | allRecipes =>
    cases m <;> simp [dispatch, get_recipes] at hd <;> rw [← hd.2] <;> exact hinv
  | recipeItem id =>
    cases m with
    | GET =>
      simp only [dispatch] at hd
      unfold update_recipe_get at hd
      rcases hg : Recipe.get db id with _ | r <;> rw [hg] at hd <;>
        obtain ⟨-, hdb2⟩ := Prod.mk.injEq .. ▸ Except.ok.inj hd <;>
        subst hdb2 <;> exact hinv
    | POST =>
      simp only [dispatch] at hd
      unfold update_recipe_post at hd
      rcases hg : Recipe.get db id with _ | r <;> rw [hg] at hd
      · obtain ⟨-, hdb2⟩ := Prod.mk.injEq .. ▸ Except.ok.inj hd
        subst hdb2; exact hinv
      rcases hk1 : form.lookup "recipe_name" with _ | v1 <;> rw [hk1] at hd
      · cases hd
      rcases hk2 : form.lookup "ingredients" with _ | v2 <;> rw [hk2] at hd
      · cases hd
      rcases hk3 : form.lookup "instructions" with _ | v3 <;> rw [hk3] at hd
      · cases hd
      rcases hk4 : form.lookup "cooking_time" with _ | v4 <;> rw [hk4] at hd
      · cases hd
      obtain ⟨-, hdb2⟩ := Prod.mk.injEq .. ▸ Except.ok.inj hd
      subst hdb2
      intro i hi
      obtain ⟨r', hrmem, hrid⟩ := hinv i hi
      have hmap : ((updateFirst (fun x => x.recipe_id == id)
          (fun x => { x with recipe_name := v1, ingredients := v2,
                             instructions := v3, cooking_time := v4 })
          db.recipes).map Recipe.recipe_id) =
          db.recipes.map Recipe.recipe_id :=
        map_updateFirst (fun x => x.recipe_id == id)
          (fun x => { x with recipe_name := v1, ingredients := v2,
                             instructions := v3, cooking_time := v4 })
          Recipe.recipe_id (fun a => rfl) db.recipes
      have hin : i.recipe_id ∈ (updateFirst (fun x => x.recipe_id == id)
          (fun x => { x with recipe_name := v1, ingredients := v2,
                             instructions := v3, cooking_time := v4 })
          db.recipes).map Recipe.recipe_id := by
        rw [hmap, List.mem_map]
        exact ⟨r', hrmem, hrid⟩
      obtain ⟨r'', hr''mem, hr''id⟩ := List.mem_map.mp hin
      exact ⟨r'', hr''mem, hr''id⟩
  | recipeDelete id =>
    cases m with
    | GET =>
      simp [dispatch] at hd
      rw [← hd.2]; exact hinv
    | POST =>
      simp only [dispatch] at hd
      unfold delete_recipe at hd
      rcases hg : Recipe.get db id with _ | r <;> rw [hg] at hd <;>
        obtain ⟨-, hdb2⟩ := Prod.mk.injEq .. ▸ Except.ok.inj hd <;>
        subst hdb2
      · exact hinv
      · intro i hi
        obtain ⟨himem, hine⟩ := List.mem_filter.mp hi
        obtain ⟨r', hrmem, hrid⟩ := hinv i himem
        have hrne : (r'.recipe_id == id) = false := by
          rw [hrid]
          simpa using hine
        exact ⟨r', mem_eraseP_of_neg hrmem hrne, hrid⟩

/-- Claim C9: every database state reachable from the fresh database by any
sequence of dispatched requests satisfies the invariant that every
Ingredient row references an existing Recipe row. -/
theorem reachableIngredientFK (db : DB) (h : Reachable db) :
    ingredientsReferenceRecipes db := by
  induction h with
  | empty =>
    intro i hi
    simp [emptyDB] at hi
  | step _ hd ih => exact dispatchPreservesIngredientFK ih hd

/-- Witness for C9: the state reached by one successful create request. -/
theorem reachableIngredientFKWitness :
    ingredientsReferenceRecipes
      ⟨[], [⟨1, "a", "b", "c", "30", 5⟩], [], [], []⟩ :=
  reachableIngredientFK ⟨[], [⟨1, "a", "b", "c", "30", 5⟩], [], [], []⟩
    (@Reachable.step emptyDB ⟨[], [⟨1, "a", "b", "c", "30", 5⟩], [], [], []⟩
      .POST .recipes (mkForm "a" "b" "c" "30") 5 (.redirect "get_recipes")
      Reachable.empty rfl)

end FoodTwitter
